import Mathlib

set_option maxHeartbeats 1000000

namespace A0M

/-! Section: Path and filesystem model

Paths are segment lists rooted at the application base directory
(`files.get_abs_path` resolves under the application base, modelled as
the segment "a0").  A filesystem is the list of existing nodes; a path
exists when it is an initial segment of some node (`os.path.exists`
treats files and directories uniformly, and so does the model). -/

abbrev Pth := List String

abbrev FS := List Pth

/-- Boolean test that `p` is an initial segment of `q`, i.e. `p` denotes
`q` itself or an ancestor directory of `q`. -/
def leadsTo : Pth → Pth → Bool
  | [], _ => true
  | _ :: _, [] => false
  | a :: p, b :: q => a == b && leadsTo p q

theorem leadsTo_refl (p : Pth) : leadsTo p p = true := by
  induction p with
  | nil => rfl
  | cons a p ih => simp [leadsTo, ih]

theorem leadsTo_self_append (p r : Pth) : leadsTo p (p ++ r) = true := by
  induction p with
  | nil => rfl
  | cons a p ih => simp [leadsTo, ih]

theorem leadsTo_append_cancel (l p q : Pth) :
    leadsTo (l ++ p) (l ++ q) = leadsTo p q := by
  induction l with
  | nil => rfl
  | cons a l ih => simp [leadsTo, ih]

theorem leadsTo_length {p q : Pth} (h : leadsTo p q = true) :
    p.length ≤ q.length := by
  induction p generalizing q with
  | nil => simp
  | cons a p ih =>
    cases q with
    | nil => simp [leadsTo] at h
    | cons b q =>
      simp only [leadsTo, Bool.and_eq_true] at h
      simpa using ih h.2

theorem not_leadsTo_snoc_self (l : Pth) (a : String) :
    leadsTo (l ++ [a]) l = false := by
  by_contra h
  have h' : leadsTo (l ++ [a]) l = true := by
    cases hb : leadsTo (l ++ [a]) l with
    | false => exact absurd hb h
    | true => rfl
  have := leadsTo_length h'
  simp at this

theorem leadsTo_comparable {p q r : Pth} (hp : leadsTo p r = true)
    (hq : leadsTo q r = true) : leadsTo p q = true ∨ leadsTo q p = true := by
  induction r generalizing p q with
  | nil =>
    cases p with
    | nil => exact Or.inl rfl
    | cons a p => simp [leadsTo] at hp
  | cons c r ih =>
    cases p with
    | nil => exact Or.inl rfl
    | cons a p =>
      cases q with
      | nil => exact Or.inr rfl
      | cons b q =>
        simp only [leadsTo, Bool.and_eq_true, beq_iff_eq] at hp hq
        rcases ih hp.2 hq.2 with h | h
        · exact Or.inl (by simp [leadsTo, hp.1, hq.1, h])
        · exact Or.inr (by simp [leadsTo, hp.1, hq.1, h])

/-- Existence of a path in the filesystem: some node lies at or below it. -/
def pathExists (fs : FS) (p : Pth) : Bool := fs.any (fun q => leadsTo p q)

/-- Recursive directory removal (`shutil.rmtree`): drop every node at or
below `p`. -/
def rmtree (fs : FS) (p : Pth) : FS := fs.filter (fun q => !(leadsTo p q))

/-- Removal of a single node (`os.remove`). -/
def removeNode (fs : FS) (p : Pth) : FS := fs.filter (fun q => q != p)

/-- Creation of a single node (file write or `os.makedirs` of a leaf dir). -/
def addNode (fs : FS) (p : Pth) : FS := p :: fs

/-- Creation of several nodes at once (files materialized by a git operation). -/
def addNodes (fs : FS) (ps : List Pth) : FS := ps ++ fs

theorem pathExists_rmtree_self (fs : FS) (p : Pth) :
    pathExists (rmtree fs p) p = false := by
  simp only [pathExists, rmtree, List.any_eq_false, List.mem_filter,
    Bool.not_eq_true']
  rintro q ⟨_, hq⟩
  simp [hq]

theorem pathExists_filter {fs : FS} {p : Pth} (f : Pth → Bool)
    (h : pathExists fs p = false) : pathExists (fs.filter f) p = false := by
  simp only [pathExists, List.any_eq_false, List.mem_filter] at *
  intro q hq
  exact h q hq.1

theorem pathExists_cons (fs : FS) (p q : Pth) :
    pathExists (q :: fs) p = (leadsTo p q || pathExists fs p) := by
  simp [pathExists]

theorem pathExists_append (fs : FS) (p : Pth) (ps : List Pth) :
    pathExists (ps ++ fs) p = (ps.any (fun q => leadsTo p q) || pathExists fs p) := by
  simp [pathExists]

/-! Section: URL normalization (`git_ops._clean_github_url`)

URLs are character lists; `strFind` models Python `str.find` (lowest
index of an occurrence, `none` when absent). -/

/-- Lowest index at which `needle` occurs in the haystack (`str.find`). -/
def strFind (needle : List Char) : List Char → Option Nat
  | [] => if needle.isEmpty then some 0 else none
  | c :: rest =>
    if needle.isPrefixOf (c :: rest) then some 0
    else (strFind needle rest).map (· + 1)

def treeMarker : List Char := "/tree/".data

def blobMarker : List Char := "/blob/".data

/-- The loop body of `_clean_github_url`: try each marker in order and
truncate at the first one that is found anywhere in the URL. -/
def cleanLoop (url : List Char) : List (List Char) → List Char
  | [] => url
  | m :: ms =>
    match strFind m url with
    | some i => url.take i
    | none => cleanLoop url ms

/-- Model of `git_ops._clean_github_url`: strip `/tree/...` or `/blob/...`
suffixes, checking the `/tree/` marker first as the source loop does. -/
def clean_github_url (url : List Char) : List Char :=
  cleanLoop url [treeMarker, blobMarker]

/-- Predicate that `m` occurs in `url` at index `i`. -/
def occursAt (m url : List Char) (i : Nat) : Prop :=
  m.isPrefixOf (url.drop i) = true

/-- Predicate that `i` is the lowest index at which `m` occurs in `url`. -/
def firstOccurAt (m url : List Char) (i : Nat) : Prop :=
  occursAt m url i ∧ ∀ j < i, ¬ occursAt m url j

instance (m url : List Char) (i : Nat) : Decidable (occursAt m url i) := by
  unfold occursAt; infer_instance

instance (m url : List Char) (i : Nat) : Decidable (firstOccurAt m url i) := by
  unfold firstOccurAt; infer_instance

theorem strFind_some {m url : List Char} {i : Nat}
    (h : strFind m url = some i) : firstOccurAt m url i := by
  induction url generalizing i with
  | nil =>
    simp only [strFind] at h
    by_cases hm : m.isEmpty
    · simp only [hm, if_pos] at h
      cases h
      refine ⟨?_, by omega⟩
      simp only [occursAt, List.drop_nil]
      cases m with
      | nil => rfl
      | cons a t => simp [List.isEmpty] at hm
    · simp [hm] at h
  | cons c rest ih =>
    simp only [strFind] at h
    by_cases hp : m.isPrefixOf (c :: rest)
    · simp only [hp, if_pos] at h
      cases h
      exact ⟨by simpa [occursAt] using hp, by omega⟩
    · simp only [hp, if_neg, Option.map_eq_some', Bool.not_eq_true] at h
      obtain ⟨j, hj, rfl⟩ := h
      obtain ⟨hocc, hmin⟩ := ih hj
      refine ⟨by simpa [occursAt] using hocc, ?_⟩
      intro k hk
      cases k with
      | zero => simpa [occursAt] using hp
      | succ k =>
        have : k < j := by omega
        simpa [occursAt] using hmin k this

theorem strFind_none {m url : List Char}
    (h : strFind m url = none) : ∀ j, ¬ occursAt m url j := by
  induction url with
  | nil =>
    simp only [strFind] at h
    by_cases hm : m.isEmpty
    · simp [hm] at h
    · intro j
      simp only [occursAt, List.drop_nil]
      cases m with
      | nil => simp [List.isEmpty] at hm
      | cons a t => simp [List.isPrefixOf]
  | cons c rest ih =>
    simp only [strFind] at h
    by_cases hp : m.isPrefixOf (c :: rest)
    · simp [hp] at h
    · rw [if_neg hp, Option.map_eq_none'] at h
      intro j
      cases j with
      | zero => simpa [occursAt] using hp
      | succ j => simpa [occursAt] using ih h j

/-! Section: Registry data model (`api/marketplace_registry.py`)

A catalog entry is a JSON object; every field other than the mandatory
`id` is read with `dict.get` and a default, so those fields are
`Option`-valued here. -/

structure RegistryPlugin where
  id : String
  nameF : Option String := none
  descriptionF : Option String := none
  authorF : Option String := none
  versionF : Option String := none
  iconF : Option String := none
  tagsF : Option (List String) := none
  featuredF : Option Bool := none
  repoUrlF : Option String := none
  branchF : Option String := none
  pluginPathF : Option String := none
  deriving Repr, DecidableEq

/-- A locally discovered plugin as produced by
`plugins.get_enhanced_plugins_list` (external collaborator; only the
fields the registry handler reads are modelled). -/
structure LocalPlugin where
  name : String
  display_name : String := ""
  description : String := ""
  version : String := ""
  is_custom : Bool := true
  has_config_screen : Bool := false
  deriving Repr, DecidableEq

/-- One row of the merged view.  `branch` is `Option`-valued because the
source emits the `"branch"` key only on catalog-derived rows; the
local-only row dict omits the key entirely, modelled as `none`. -/
structure MergedRow where
  id : String
  name : String
  description : String
  author : String
  version : String
  icon : String
  tags : List String
  featured : Bool
  install_count : Nat
  status : String
  is_builtin : Bool
  has_config : Bool
  repo_url : String
  branch : Option String
  plugin_path : String
  deriving Repr, DecidableEq

/-- Lookup in the dict comprehension over local plugins keyed by name,
followed by `.get(pid)`: the comprehension keeps the last plugin with a
given name. -/
def localByName (lps : List LocalPlugin) (pid : String) : Option LocalPlugin :=
  (lps.filter (fun p => p.name == pid)).getLast?

/-- Fixed name of the disabled sentinel file.  Modelled from the spec:
`plugins.DISABLED_FILE_NAME` lives outside `src/`; the spec only fixes
that it is one constant filename, distinct from the enabled marker. -/
def DISABLED_FILE_NAME : String := ".disabled"

/-- Fixed name of the enabled sentinel file.  Modelled from the spec:
`plugins.ENABLED_FILE_NAME` lives outside `src/`; the spec only fixes
that it is one constant filename, distinct from the disabled marker. -/
def ENABLED_FILE_NAME : String := ".enabled"

def USR_PLUGINS_SEGS : Pth := ["a0", "usr", "plugins"]

def BUILTIN_PLUGINS_SEGS : Pth := ["a0", "plugins"]

/-- Path of a plugin's disabled sentinel inside the user-data directory,
`files.get_abs_path(files.USER_DIR, files.PLUGINS_DIR, pid, DISABLED_FILE_NAME)`. -/
def disabledSentinel (pid : String) : Pth := USR_PLUGINS_SEGS ++ [pid, DISABLED_FILE_NAME]

/-- Path of a plugin's enabled sentinel inside the user-data directory. -/
def enabledSentinel (pid : String) : Pth := USR_PLUGINS_SEGS ++ [pid, ENABLED_FILE_NAME]

/-- Row built in the first (catalog) pass of `MarketplaceRegistry.process`
for a catalog entry `rp`, given the result of the local lookup. -/
def catalogRow (rp : RegistryPlugin) (loc : Option LocalPlugin)
    (stats : String → Nat) (disabled : String → Bool) : MergedRow :=
  { id := rp.id
    name := rp.nameF.getD rp.id
    description := rp.descriptionF.getD ""
    author := rp.authorF.getD ""
    version := rp.versionF.getD ""
    icon := rp.iconF.getD "extension"
    tags := rp.tagsF.getD []
    featured := rp.featuredF.getD false
    install_count := stats rp.id
    status :=
      match loc with
      | some _ => if disabled rp.id then "inactive" else "active"
      | none => "available"
    is_builtin :=
      match loc with
      | some l => l.is_custom == false
      | none => false
    has_config :=
      match loc with
      | some l => l.has_config_screen
      | none => false
    repo_url := rp.repoUrlF.getD ""
    branch := some (rp.branchF.getD "")
    plugin_path := rp.pluginPathF.getD "." }

/-- Row built in the second (local-only) pass of
`MarketplaceRegistry.process` for a sideloaded local plugin.  The source
dict carries no `"branch"` key on this row, hence `branch := none`. -/
def localOnlyRow (lp : LocalPlugin) (disabled : String → Bool) : MergedRow :=
  { id := lp.name
    name := if lp.display_name != "" then lp.display_name else lp.name
    description := lp.description
    author := ""
    version := lp.version
    icon := "extension"
    tags := []
    featured := false
    install_count := 0
    status := if disabled lp.name then "inactive" else "active"
    is_builtin := !lp.is_custom
    has_config := lp.has_config_screen
    repo_url := ""
    branch := none
    plugin_path := "" }

/-- The two-pass merge of `MarketplaceRegistry.process` (lines 52-109):
one row per catalog entry in catalog order, then one row per local
plugin whose name is not among the catalog identifiers, in local
enumeration order.  `seen_ids` after the first pass is exactly the set
of catalog identifiers and is never extended by the second pass. -/
def buildMerged (registry : List RegistryPlugin) (locals : List LocalPlugin)
    (stats : String → Nat) (disabled : String → Bool) : List MergedRow :=
  let seen := registry.map (fun rp => rp.id)
  registry.map (fun rp => catalogRow rp (localByName locals rp.id) stats disabled)
    ++ (locals.filter (fun lp => !(seen.contains lp.name))).map
        (fun lp => localOnlyRow lp disabled)

/-- The merge with the disabled predicate instantiated by the real
sentinel lookup `files.exists(disabled_path)` against a filesystem. -/
def buildMergedFS (registry : List RegistryPlugin) (locals : List LocalPlugin)
    (stats : String → Nat) (fs : FS) : List MergedRow :=
  buildMerged registry locals stats (fun pid => pathExists fs (disabledSentinel pid))

/-! Section: Registry cache (`marketplace_registry.py` lines 12-31) -/

/-- Wall-clock freshness window, `CACHE_TTL = 300` seconds. -/
def CACHE_TTL : Nat := 300

/-- The catalog portion of the module-level `_cache` dict. -/
structure RegCache where
  data : Option (List RegistryPlugin)
  ts : Nat
  deriving Repr, DecidableEq

/-- The catalog-fetch section of `MarketplaceRegistry.process`: refetch
when the cache is empty or stale; a successful fetch replaces cache and
timestamp; a failed fetch is fatal only when nothing was cached, and
otherwise the stale cache is kept.  `fetch` is the outcome of the
network call (`.error` models the raised exception). -/
def registryFetchStep (c : RegCache) (now : Nat)
    (fetch : Except String (List RegistryPlugin)) : Except String RegCache :=
  if c.data.isNone || decide (now - c.ts > CACHE_TTL) then
    match fetch with
    | .ok doc => .ok { data := some doc, ts := now }
    | .error e =>
      if c.data.isNone then .error ("Failed to fetch registry: " ++ e)
      else .ok c
  else .ok c

/-! Section: Structure of the merged view -/

theorem buildMerged_ids (registry : List RegistryPlugin) (locals : List LocalPlugin)
    (stats : String → Nat) (disabled : String → Bool) :
    (buildMerged registry locals stats disabled).map MergedRow.id
      = registry.map RegistryPlugin.id
        ++ (locals.filter (fun lp =>
            !((registry.map RegistryPlugin.id).contains lp.name))).map LocalPlugin.name := by
  simp only [buildMerged, List.map_append, List.map_map]
  congr 1

theorem mem_buildMerged (registry : List RegistryPlugin) (locals : List LocalPlugin)
    (stats : String → Nat) (disabled : String → Bool) {row : MergedRow}
    (h : row ∈ buildMerged registry locals stats disabled) :
    (∃ rp ∈ registry, row = catalogRow rp (localByName locals rp.id) stats disabled)
    ∨ (∃ lp ∈ locals, row.id ∉ registry.map RegistryPlugin.id
        ∧ row = localOnlyRow lp disabled) := by
  simp only [buildMerged, List.mem_append, List.mem_map, List.mem_filter] at h
  rcases h with ⟨rp, hrp, hr⟩ | ⟨lp, ⟨hlp, hseen⟩, hr⟩
  · exact Or.inl ⟨rp, hrp, hr.symm⟩
  · refine Or.inr ⟨lp, hlp, ?_, hr.symm⟩
    rw [← hr]
    simpa [localOnlyRow, List.contains_iff_exists_mem_beq] using hseen

theorem status_of_row_mem (registry : List RegistryPlugin) (locals : List LocalPlugin)
    (stats : String → Nat) (fs : FS) {row : MergedRow}
    (hrow : row ∈ buildMergedFS registry locals stats fs)
    (hloc : (localByName locals row.id).isSome = true) :
    row.status = (if pathExists fs (disabledSentinel row.id) then "inactive" else "active") := by
  rcases mem_buildMerged registry locals stats _ hrow with ⟨rp, _, hr⟩ | ⟨lp, _, _, hr⟩
  · subst hr
    have hid : (catalogRow rp (localByName locals rp.id) stats
        (fun pid => pathExists fs (disabledSentinel pid))).id = rp.id := rfl
    rw [hid] at hloc ⊢
    cases h : localByName locals rp.id with
    | none => rw [h] at hloc; simp at hloc
    | some l => simp [catalogRow, h]
  · subst hr
    simp [localOnlyRow]

theorem leadsTo_dis_en (q pid : String) :
    leadsTo (disabledSentinel q) (enabledSentinel pid) = false := by
  simp only [disabledSentinel, enabledSentinel, USR_PLUGINS_SEGS, DISABLED_FILE_NAME,
    ENABLED_FILE_NAME, List.cons_append, List.nil_append, leadsTo]
  simp

theorem leadsTo_en_dis (q pid : String) :
    leadsTo (enabledSentinel q) (disabledSentinel pid) = false := by
  simp only [disabledSentinel, enabledSentinel, USR_PLUGINS_SEGS, DISABLED_FILE_NAME,
    ENABLED_FILE_NAME, List.cons_append, List.nil_append, leadsTo]
  simp

theorem pathExists_removeNode (fs : FS) {p q : Pth} (h : leadsTo p q = false) :
    pathExists (removeNode fs q) p = pathExists fs p := by
  induction fs with
  | nil => rfl
  | cons r fs ih =>
    rw [removeNode, List.filter_cons]
    by_cases hr : r = q
    · subst hr
      simp only [bne_self_eq_false, if_neg Bool.false_ne_true, pathExists_cons, h,
        Bool.false_or]
      exact ih
    · have : (r != q) = true := by simpa using hr
      rw [if_pos this, pathExists_cons, pathExists_cons]
      rw [show List.filter (fun x => x != q) fs = removeNode fs q from rfl, ih]

theorem buildMergedFS_congr (registry : List RegistryPlugin) (locals : List LocalPlugin)
    (stats : String → Nat) {fs1 fs2 : FS}
    (h : ∀ pid, pathExists fs1 (disabledSentinel pid) = pathExists fs2 (disabledSentinel pid)) :
    buildMergedFS registry locals stats fs1 = buildMergedFS registry locals stats fs2 := by
  unfold buildMergedFS
  congr 1
  funext pid
  exact h pid

/-- C2 (amended with distinct input identifiers): when the catalog
identifiers are pairwise distinct and the local plugin names are
pairwise distinct, the merged view has exactly one row per distinct
identifier: its identifier sequence is the catalog identifiers in
catalog order followed by the names of the local-only plugins in local
enumeration order, and that sequence has no duplicates. -/
theorem c2_reconcile_one_row_per_id (registry : List RegistryPlugin)
    (locals : List LocalPlugin) (stats : String → Nat) (disabled : String → Bool)
    (hreg : (registry.map RegistryPlugin.id).Nodup)
    (hloc : (locals.map LocalPlugin.name).Nodup) :
    (buildMerged registry locals stats disabled).map MergedRow.id
      = registry.map RegistryPlugin.id
        ++ (locals.filter (fun lp =>
            !((registry.map RegistryPlugin.id).contains lp.name))).map LocalPlugin.name
    ∧ ((buildMerged registry locals stats disabled).map MergedRow.id).Nodup := by
  refine ⟨buildMerged_ids _ _ _ _, ?_⟩
  rw [buildMerged_ids]
  refine List.Nodup.append ?_ ?_ ?_
  · exact hreg
  · exact List.Nodup.sublist (List.Sublist.map _ (List.filter_sublist _)) hloc
  · intro x hx hy
    simp only [List.mem_map, List.mem_filter, List.contains_iff_exists_mem_beq,
      beq_iff_eq, Bool.not_eq_true'] at hy
    obtain ⟨lp, ⟨_, hc⟩, rfl⟩ := hy
    exact absurd hx (by simpa [List.contains_iff_exists_mem_beq] using hc)

/-- C2 witness: a one-entry catalog and a distinct sideloaded plugin
produce a duplicate-free identifier sequence. -/
theorem c2_reconcile_witness :
    ((buildMerged [{ id := "a" }] [{ name := "b" }] (fun _ => 0)
        (fun _ => false)).map MergedRow.id).Nodup :=
  (c2_reconcile_one_row_per_id _ _ _ _ (by decide) (by decide)).2

/-- C2 counterexample: a catalog that repeats an identifier yields two
rows for that single distinct identifier, refuting the claim for every
catalog list. -/
theorem c2_reconcile_counterexample :
    (buildMerged [{ id := "a" }, { id := "a" }] [] (fun _ => 0)
        (fun _ => false)).map MergedRow.id = ["a", "a"]
    ∧ ¬ ((buildMerged [{ id := "a" }, { id := "a" }] [] (fun _ => 0)
        (fun _ => false)).map MergedRow.id).Nodup := by
  exact ⟨rfl, by decide⟩

/-- C9 (amended): every local-only row has install count 0, empty source
URL, empty path, status from its own disabled sentinel, and carries no
branch field at all (the source dict omits the `"branch"` key on these
rows, rather than setting it to an empty string). -/
theorem c9_local_only_fields (registry : List RegistryPlugin) (locals : List LocalPlugin)
    (stats : String → Nat) (disabled : String → Bool) :
    ∀ row ∈ buildMerged registry locals stats disabled,
      row.id ∉ registry.map RegistryPlugin.id →
      row.install_count = 0 ∧ row.repo_url = "" ∧ row.branch = none
        ∧ row.plugin_path = ""
        ∧ row.status = (if disabled row.id then "inactive" else "active") := by
  intro row hrow hid
  rcases mem_buildMerged _ _ _ _ hrow with ⟨rp, hrp, hr⟩ | ⟨lp, _, _, hr⟩
  · exfalso
    apply hid
    subst hr
    exact List.mem_map_of_mem _ hrp
  · subst hr
    exact ⟨rfl, rfl, rfl, rfl, rfl⟩

/-- C9 witness: a sideloaded plugin with no catalog entry gets a row
with zero install count and no branch field. -/
theorem c9_local_only_witness :
    (localOnlyRow { name := "c" } (fun _ => false)).branch = none
    ∧ (localOnlyRow { name := "c" } (fun _ => false)).install_count = 0 := by
  have h := c9_local_only_fields [] [{ name := "c" }] (fun _ => 0) (fun _ => false)
    (localOnlyRow { name := "c" } (fun _ => false)) (by decide) (by decide)
  exact ⟨h.2.2.1, h.1⟩

/-- C9 counterexample: the local-only row of a sideloaded plugin has no
branch field (`none`), not an empty branch (`some ""`), refuting the
claim that every local-only row has an empty branch. -/
theorem c9_branch_absent_counterexample :
    (buildMerged [] [{ name := "c" }] (fun _ => 0) (fun _ => false)).map
        MergedRow.branch = [none]
    ∧ ∀ row ∈ buildMerged [] [{ name := "c" }] (fun _ => 0) (fun _ => false),
        ¬ row.branch = some "" := by
  exact ⟨rfl, by decide⟩

/-- C10: reconciliation computes the status of every locally present
plugin solely from the disabled sentinel: status is "inactive" exactly
when that sentinel exists and "active" otherwise, and the merged view is
unchanged by adding or removing the enabled sentinel of any plugin (the
enabled marker is never read). -/
theorem c10_status_solely_disabled (registry : List RegistryPlugin)
    (locals : List LocalPlugin) (stats : String → Nat) (fs : FS) :
    (∀ row ∈ buildMergedFS registry locals stats fs,
        (localByName locals row.id).isSome = true →
        row.status
          = (if pathExists fs (disabledSentinel row.id) then "inactive" else "active"))
    ∧ (∀ pid, buildMergedFS registry locals stats (addNode fs (enabledSentinel pid))
        = buildMergedFS registry locals stats fs)
    ∧ (∀ pid, buildMergedFS registry locals stats (removeNode fs (enabledSentinel pid))
        = buildMergedFS registry locals stats fs) := by
  refine ⟨fun row hrow hloc => status_of_row_mem _ _ _ _ hrow hloc, ?_, ?_⟩
  · intro pid
    apply buildMergedFS_congr
    intro q
    simp [addNode, pathExists_cons, leadsTo_dis_en q pid]
  · intro pid
    apply buildMergedFS_congr
    intro q
    exact pathExists_removeNode fs (leadsTo_dis_en q pid)

/-- C10 witness: a never-toggled sideloaded plugin (neither marker on
disk) is reported active. -/
theorem c10_status_witness :
    (localOnlyRow { name := "p" }
        (fun pid => pathExists [] (disabledSentinel pid))).status = "active" := by
  have h := (c10_status_solely_disabled [] [{ name := "p" }] (fun _ => 0) []).1
    (localOnlyRow { name := "p" } (fun pid => pathExists [] (disabledSentinel pid)))
    (by decide) (by decide)
  simpa using h

/-- C3: with an absent or stale cached catalog the handler consumes the
network fetch outcome: success replaces the cached catalog and its
timestamp, failure is an error exactly when nothing was cached, and
otherwise the prior snapshot is served unchanged. -/
theorem c3_cache_refresh (c : RegCache) (now : Nat)
    (hstale : c.data = none ∨ now - c.ts > CACHE_TTL) :
    (∀ doc, registryFetchStep c now (.ok doc) = .ok { data := some doc, ts := now })
    ∧ (c.data = none → ∀ e,
        registryFetchStep c now (.error e) = .error ("Failed to fetch registry: " ++ e))
    ∧ (∀ d, c.data = some d → ∀ e, registryFetchStep c now (.error e) = .ok c) := by
  have hc : (c.data.isNone || decide (now - c.ts > CACHE_TTL)) = true := by
    rcases hstale with h | h
    · simp [h]
    · simp [h]
  refine ⟨?_, ?_, ?_⟩
  · intro doc
    simp [registryFetchStep, hc]
  · intro h e
    simp [registryFetchStep, hc, h]
  · intro d hd e
    simp [registryFetchStep, hc, hd]

/-- C3 witness: the first-ever fetch failing returns an error; a
successful fetch installs the document with its timestamp. -/
theorem c3_cache_refresh_witness :
    registryFetchStep { data := none, ts := 0 } 7 (.error "boom")
        = .error ("Failed to fetch registry: " ++ "boom")
    ∧ registryFetchStep { data := none, ts := 0 } 7 (.ok [])
        = .ok { data := some [], ts := 7 } := by
  have h := c3_cache_refresh { data := none, ts := 0 } 7 (Or.inl rfl)
  exact ⟨h.2.1 rfl "boom", h.1 []⟩

/-! Section: Toggle endpoint (`api/marketplace_toggle.py`) -/

inductive ToggleOut where
  | badRequest
  | notFound (msg : String)
  | ok (status : String)
  deriving Repr, DecidableEq

/-- Model of `MarketplaceToggle.process`.  `found` models the outcome of
`plugins.find_plugin_dir` (external collaborator outside `src/`): `true`
when the plugin directory was located.  An enable toggle removes the
disabled sentinel if present and writes the enabled sentinel; a disable
toggle does the opposite. -/
def toggleProcess (fs : FS) (found : Bool) (plugin_id : String) (enabled : Bool) :
    ToggleOut × FS :=
  if plugin_id == "" then (.badRequest, fs)
  else if !found then (.notFound ("Plugin '" ++ plugin_id ++ "' not found."), fs)
  else
    let fs1 := addNode fs (USR_PLUGINS_SEGS ++ [plugin_id])
    if enabled then
      let fs2 :=
        if pathExists fs1 (disabledSentinel plugin_id) then
          removeNode fs1 (disabledSentinel plugin_id)
        else fs1
      (.ok "active", addNode fs2 (enabledSentinel plugin_id))
    else
      let fs2 :=
        if pathExists fs1 (enabledSentinel plugin_id) then
          removeNode fs1 (enabledSentinel plugin_id)
        else fs1
      (.ok "inactive", addNode fs2 (disabledSentinel plugin_id))

theorem pathExists_removeNode_self {fs : FS} {p : Pth}
    (h : ∀ q ∈ fs, leadsTo p q = true → q = p) :
    pathExists (removeNode fs p) p = false := by
  simp only [pathExists, removeNode, List.any_eq_false, List.mem_filter]
  rintro q ⟨hq, hne⟩
  cases hl : leadsTo p q with
  | false => simp
  | true =>
    exfalso
    have := h q hq hl
    subst this
    simp at hne

theorem leadsTo_dis_dir (pid : String) :
    leadsTo (disabledSentinel pid) (USR_PLUGINS_SEGS ++ [pid]) = false := by
  have h : disabledSentinel pid
      = (USR_PLUGINS_SEGS ++ [pid]) ++ [DISABLED_FILE_NAME] := by
    simp [disabledSentinel]
  rw [h]
  exact not_leadsTo_snoc_self _ _

theorem leadsTo_en_dir (pid : String) :
    leadsTo (enabledSentinel pid) (USR_PLUGINS_SEGS ++ [pid]) = false := by
  have h : enabledSentinel pid
      = (USR_PLUGINS_SEGS ++ [pid]) ++ [ENABLED_FILE_NAME] := by
    simp [enabledSentinel]
  rw [h]
  exact not_leadsTo_snoc_self _ _

/-- C7: after a toggle completes, the two sentinels are never both
present: enabling writes the enabled sentinel and leaves no disabled
sentinel, disabling does the opposite; a subsequent reconciliation
reports the plugin active after an enable toggle and inactive after a
disable toggle.  The hypotheses say the sentinel paths are files (no
filesystem node lies strictly below either marker path). -/
theorem c7_toggle_mutual_exclusion (fs : FS) (id : String) (hid : id ≠ "")
    (hdis : ∀ q ∈ fs, leadsTo (disabledSentinel id) q = true → q = disabledSentinel id)
    (hen : ∀ q ∈ fs, leadsTo (enabledSentinel id) q = true → q = enabledSentinel id) :
    (pathExists (toggleProcess fs true id true).2 (enabledSentinel id) = true
      ∧ pathExists (toggleProcess fs true id true).2 (disabledSentinel id) = false
      ∧ (toggleProcess fs true id true).1 = .ok "active"
      ∧ ∀ (registry : List RegistryPlugin) (locals : List LocalPlugin)
          (stats : String → Nat),
          (localByName locals id).isSome = true →
          ∀ row ∈ buildMergedFS registry locals stats (toggleProcess fs true id true).2,
            row.id = id → row.status = "active")
    ∧ (pathExists (toggleProcess fs true id false).2 (disabledSentinel id) = true
      ∧ pathExists (toggleProcess fs true id false).2 (enabledSentinel id) = false
      ∧ (toggleProcess fs true id false).1 = .ok "inactive"
      ∧ ∀ (registry : List RegistryPlugin) (locals : List LocalPlugin)
          (stats : String → Nat),
          (localByName locals id).isSome = true →
          ∀ row ∈ buildMergedFS registry locals stats (toggleProcess fs true id false).2,
            row.id = id → row.status = "inactive") := by
  have hid' : (id == "") = false := by simpa using hid
  have hdis1 : ∀ q ∈ addNode fs (USR_PLUGINS_SEGS ++ [id]),
      leadsTo (disabledSentinel id) q = true → q = disabledSentinel id := by
    intro q hq hl
    rcases List.mem_cons.mp hq with rfl | hq
    · rw [leadsTo_dis_dir id] at hl
      exact absurd hl (by simp)
    · exact hdis q hq hl
  have hen1 : ∀ q ∈ addNode fs (USR_PLUGINS_SEGS ++ [id]),
      leadsTo (enabledSentinel id) q = true → q = enabledSentinel id := by
    intro q hq hl
    rcases List.mem_cons.mp hq with rfl | hq
    · rw [leadsTo_en_dir id] at hl
      exact absurd hl (by simp)
    · exact hen q hq hl
  have henOut : (toggleProcess fs true id true).2
      = addNode (if pathExists (addNode fs (USR_PLUGINS_SEGS ++ [id]))
            (disabledSentinel id) then
          removeNode (addNode fs (USR_PLUGINS_SEGS ++ [id])) (disabledSentinel id)
        else addNode fs (USR_PLUGINS_SEGS ++ [id])) (enabledSentinel id) := by
    simp [toggleProcess, hid']
  have hdisOut : (toggleProcess fs true id false).2
      = addNode (if pathExists (addNode fs (USR_PLUGINS_SEGS ++ [id]))
            (enabledSentinel id) then
          removeNode (addNode fs (USR_PLUGINS_SEGS ++ [id])) (enabledSentinel id)
        else addNode fs (USR_PLUGINS_SEGS ++ [id])) (disabledSentinel id) := by
    simp [toggleProcess, hid']
  have hdisAfterEnable :
      pathExists (toggleProcess fs true id true).2 (disabledSentinel id) = false := by
    rw [henOut, addNode, pathExists_cons, leadsTo_dis_en id id, Bool.false_or]
    by_cases hp : pathExists (addNode fs (USR_PLUGINS_SEGS ++ [id]))
        (disabledSentinel id) = true
    · rw [if_pos hp]
      exact pathExists_removeNode_self hdis1
    · rw [if_neg hp]
      simpa using hp
  have henAfterDisable :
      pathExists (toggleProcess fs true id false).2 (enabledSentinel id) = false := by
    rw [hdisOut, addNode, pathExists_cons, leadsTo_en_dis id id, Bool.false_or]
    by_cases hp : pathExists (addNode fs (USR_PLUGINS_SEGS ++ [id]))
        (enabledSentinel id) = true
    · rw [if_pos hp]
      exact pathExists_removeNode_self hen1
    · rw [if_neg hp]
      simpa using hp
  refine ⟨⟨?_, hdisAfterEnable, ?_, ?_⟩, ⟨?_, henAfterDisable, ?_, ?_⟩⟩
  · rw [henOut, addNode, pathExists_cons, leadsTo_refl]
    rfl
  · simp [toggleProcess, hid']
  · intro registry locals stats hloc row hrow hrid
    have hst := status_of_row_mem registry locals stats _ hrow (by rw [hrid]; exact hloc)
    rw [hrid] at hst
    rw [hst, hdisAfterEnable]
    rfl
  · rw [hdisOut, addNode, pathExists_cons, leadsTo_refl]
    rfl
  · simp [toggleProcess, hid']
  · intro registry locals stats hloc row hrow hrid
    have hst := status_of_row_mem registry locals stats _ hrow (by rw [hrid]; exact hloc)
    rw [hrid] at hst
    rw [hst, hdisOut]
    rw [addNode, pathExists_cons, leadsTo_refl]
    rfl

/-- C7 witness: toggling a fresh plugin to enabled leaves the enabled
sentinel present and the disabled sentinel absent. -/
theorem c7_toggle_witness :
    pathExists (toggleProcess [] true "p" true).2 (enabledSentinel "p") = true
    ∧ pathExists (toggleProcess [] true "p" true).2 (disabledSentinel "p") = false := by
  have h := c7_toggle_mutual_exclusion [] "p" (by decide)
    (by intro q hq; simp at hq) (by intro q hq; simp at hq)
  exact ⟨h.1.1, h.1.2.1⟩

/-! Section: Git operations (`helpers/git_ops.py`)

Subprocess calls to git are abstracted by an environment describing
each call's outcome.  A nonzero-exit `git clone` removes the directory
it created (documented git behavior), so only a successful clone
materializes files under the target; a raising clone (e.g. a timeout
kill) may leave partial files behind.  Results mirror the
`{"ok": True} / {"ok": False, "error": ...}` dicts. -/

inductive OpResult where
  | ok
  | err (msg : String)
  deriving Repr, DecidableEq

inductive ProcOut where
  | exited (code : Nat) (stderr : String)
  | raised (msg : String)
  deriving Repr, DecidableEq

structure GitEnv where
  /-- outcome of `git clone --depth 1 [--branch b] url target` -/
  clone : String → String → ProcOut
  /-- paths relative to the target created by a successful clone -/
  cloneFiles : String → String → List Pth
  /-- partial relative paths left under the target when the clone raises -/
  clonePartial : String → String → List Pth
  /-- message when `git init` (run with check=True) raises, else `none` -/
  initExc : Option String
  /-- message when `git remote add` raises, else `none` -/
  remoteExc : Option String
  /-- message when `git config core.sparseCheckout` raises, else `none` -/
  configExc : Option String
  /-- outcome of `git pull --depth 1 origin <branch>` for a url and branch -/
  pull : String → String → ProcOut
  /-- paths relative to the requested subdirectory materialized by a
  successful sparse pull of a branch -/
  pullFiles : String → String → List Pth

/-- Split a character list on `/` (the semantics of Python
`str.split("/")`, written on `List Char` so that it evaluates in the
kernel). -/
def splitOnSlash : List Char → List (List Char)
  | [] => [[]]
  | c :: rest =>
    let r := splitOnSlash rest
    if c == '/' then [] :: r
    else
      match r with
      | [] => [[c]]
      | s :: ss => (c :: s) :: ss

/-- Whether a path string is absolute (`startswith("/")`). -/
def isAbsStr (p : String) : Bool :=
  match p.data with
  | [] => false
  | c :: _ => c == '/'

/-- Segments of a relative path string (`os.path.join` flattening;
empty segments from duplicate or trailing separators vanish). -/
def strSegs (p : String) : Pth :=
  ((splitOnSlash p.data).map String.mk).filter (fun t => t != "")

/-- Model of `git_ops._full_clone`: shallow clone straight into the target, strip
`.git`, then require a `plugin.yaml` or `plugin.json` manifest at the
target root.  `.error` carries a raised exception together with the
filesystem at the raise point. -/
def fullClone (env : GitEnv) (repo_url : String) (target : Pth) (branch : String)
    (fs : FS) : Except (String × FS) (OpResult × FS) :=
  match env.clone repo_url branch with
  | .raised msg =>
    .error (msg, addNodes fs ((env.clonePartial repo_url branch).map (fun r => target ++ r)))
  | .exited code stderr =>
    if code != 0 then
      .ok (.err ("git clone failed: " ++ stderr.trim), fs)
    else
      let fs1 := addNodes fs ((env.cloneFiles repo_url branch).map (fun r => target ++ r))
      let fs2 := if pathExists fs1 (target ++ [".git"]) then
          rmtree fs1 (target ++ [".git"]) else fs1
      if !(pathExists fs2 (target ++ ["plugin.yaml"]))
          && !(pathExists fs2 (target ++ ["plugin.json"])) then
        .ok (.err "Cloned repo has no plugin.yaml at root.", rmtree fs2 target)
      else
        .ok (.ok, fs2)

/-- Branch candidates of `_sparse_clone`: the caller's branch alone when
given, otherwise `main` then `master`. -/
def branchesToTry (branch : String) : List String :=
  if branch != "" then [branch] else ["main", "master"]

/-- The pull loop of `_sparse_clone`: run `git pull` on each candidate,
stopping at the first zero exit; the value is the last attempted pull's
(branch, exit code, stderr), `none` when there was no candidate, and
`.error` when a pull raised. -/
def pullLoop (pull : String → ProcOut) : List String → Except String (Option (String × Nat × String))
  | [] => .ok none
  | b :: rest =>
    match pull b with
    | .raised m => .error m
    | .exited c e =>
      if c == 0 then .ok (some (b, c, e))
      else
        match rest with
        | [] => .ok (some (b, c, e))
        | _ :: _ => pullLoop pull rest

/-- The branches the pull loop actually runs, in order: it stops after a
zero exit (or a raise) and otherwise continues down the candidate list. -/
def attemptedBranches (pull : String → ProcOut) : List String → List String
  | [] => []
  | b :: rest =>
    match pull b with
    | .raised _ => [b]
    | .exited c _ =>
      if c == 0 then [b]
      else if rest.isEmpty then [b]
      else b :: attemptedBranches pull rest

/-- Body of `git_ops._sparse_clone` before its `finally` block: init a
staging repo at `tmp`, configure sparse checkout, pull with branch
fallback, move the requested subdirectory to `target`, validate the
manifest.  The three administrative commands run with check=True, so
their failures raise. -/
def sparseCloneCore (env : GitEnv) (repo_url plugin_path : String) (target tmp : Pth)
    (branch : String) (fs : FS) : Except (String × FS) (OpResult × FS) :=
  let fs0 := addNode fs tmp
  match env.initExc with
  | some m => .error (m, fs0)
  | none =>
  match env.remoteExc with
  | some m => .error (m, fs0)
  | none =>
  match env.configExc with
  | some m => .error (m, fs0)
  | none =>
  let fs1 := addNode fs0 (tmp ++ [".git", "info", "sparse-checkout"])
  match pullLoop (env.pull repo_url) (branchesToTry branch) with
  | .error m => .error (m, fs1)
  | .ok none => .ok (.err ("git pull failed: " ++ "No branches to try"), fs1)
  | .ok (some (b, c, e)) =>
    if c != 0 then .ok (.err ("git pull failed: " ++ e.trim), fs1)
    else
      let src := tmp ++ strSegs plugin_path
      let fs2 := addNodes fs1 ((env.pullFiles repo_url b).map (fun r => src ++ r))
      if !(pathExists fs2 src) then
        .ok (.err ("Path '" ++ plugin_path ++ "' not found in repo."), fs2)
      else
        let fs3 := addNodes (rmtree fs2 src)
          (target :: (env.pullFiles repo_url b).map (fun r => target ++ r))
        if !(pathExists fs3 (target ++ ["plugin.yaml"]))
            && !(pathExists fs3 (target ++ ["plugin.json"])) then
          .ok (.err "Plugin path has no plugin.yaml.", rmtree fs3 target)
        else
          .ok (.ok, fs3)

/-- Model of `git_ops._sparse_clone`: the core body followed by the `finally`
block, which removes the staging directory on every exit path. -/
def sparseClone (env : GitEnv) (repo_url plugin_path : String) (target tmp : Pth)
    (branch : String) (fs : FS) : Except (String × FS) (OpResult × FS) :=
  match sparseCloneCore env repo_url plugin_path target tmp branch fs with
  | .error (m, fs1) => .error (m, if pathExists fs1 tmp then rmtree fs1 tmp else fs1)
  | .ok (r, fs1) => .ok (r, if pathExists fs1 tmp then rmtree fs1 tmp else fs1)

/-- Model of `git_ops.clone_plugin`: refuse when the target already exists,
ensure `usr/plugins` exists, normalize the URL, dispatch on whether the
plugin lives in a subdirectory, and on any raised exception remove the
target directory and return the message as an error.  Plugin
identifiers are plain directory names, so `os.path.join` appends a
single segment and the staging directory is the sibling
`<plugin_id>_tmp_clone`. -/
def clone_plugin (env : GitEnv) (repo_url plugin_path plugin_id branch : String)
    (fs : FS) : OpResult × FS :=
  let target := USR_PLUGINS_SEGS ++ [plugin_id]
  if pathExists fs target then
    (.err ("Plugin '" ++ plugin_id ++ "' is already installed."), fs)
  else
    let fs1 := addNode fs USR_PLUGINS_SEGS
    let url := String.mk (clean_github_url repo_url.data)
    let run :=
      if plugin_path != "" && plugin_path != "." then
        sparseClone env url plugin_path target
          (USR_PLUGINS_SEGS ++ [plugin_id ++ "_tmp_clone"]) branch fs1
      else
        fullClone env url target branch fs1
    match run with
    | .ok (r, fs2) => (r, fs2)
    | .error (m, fs2) =>
      (.err m, if pathExists fs2 target then rmtree fs2 target else fs2)

/-! Section: Remover (`git_ops.remove_plugin`)

The protected-path guard compares `os.path.abspath` of the target under
`usr/plugins` with the built-in location under `plugins`; `os.path.join`
discards the base when the identifier is an absolute path, and abspath
resolves `.`, `..` and empty segments. -/

def BASE_DIR_STR : String := "/a0"

def USR_PLUGINS_DIR_STR : String := "/a0/usr/plugins"

def BUILTIN_DIR_STR : String := "/a0/plugins"

/-- Model of `os.path.join` for one component: an absolute second argument
replaces the first entirely. -/
def ospJoin (a b : String) : String :=
  if isAbsStr b then b else a ++ "/" ++ b

/-- One step of path normalization: skip empty and `.` segments, let
`..` drop the previous segment (staying at the root when there is
none). -/
def normStep (acc : List String) (seg : String) : List String :=
  if seg == "" || seg == "." then acc
  else if seg == ".." then acc.dropLast
  else acc ++ [seg]

/-- Normalized segments of a path string, resolved against the
application base when relative (the resolution `os.path.abspath`
performs). -/
def absSegs (p : String) : Pth :=
  ((splitOnSlash (if isAbsStr p then p else BASE_DIR_STR ++ "/" ++ p).data).map
    String.mk).foldl normStep []

/-- Model of `os.path.abspath` as a string. -/
def abspathStr (p : String) : String :=
  "/" ++ String.intercalate "/" (absSegs p)

/-- Model of `git_ops.remove_plugin`: refuse when the resolved target equals the
built-in location, fail when the target does not exist, otherwise delete
the target tree.  (The `shutil.rmtree` exception branch is not
exercised by any claim and the deletion is modelled as succeeding.) -/
def remove_plugin (fs : FS) (plugin_id : String) : OpResult × FS :=
  let target := ospJoin USR_PLUGINS_DIR_STR plugin_id
  let builtin := ospJoin BUILTIN_DIR_STR plugin_id
  if abspathStr target == abspathStr builtin then
    (.err "Cannot uninstall built-in plugins.", fs)
  else if !(pathExists fs (absSegs target)) then
    (.err ("Plugin '" ++ plugin_id ++ "' is not installed in usr/plugins/."), fs)
  else
    (.ok, rmtree fs (absSegs target))

/-- A concrete environment used to instantiate witnesses. -/
def witEnv : GitEnv :=
  { clone := fun _ _ => .exited 1 "boom"
    cloneFiles := fun _ _ => []
    clonePartial := fun _ _ => []
    initExc := none
    remoteExc := none
    configExc := none
    pull := fun _ b => .exited 1 ("no branch " ++ b)
    pullFiles := fun _ _ => [] }

/-- C5: when the target directory already exists, `clone_plugin` returns
the already-installed error immediately and the filesystem is unchanged
(no clone step runs, nothing is mutated). -/
theorem c5_already_installed (env : GitEnv)
    (repo_url plugin_path plugin_id branch : String) (fs : FS)
    (h : pathExists fs (USR_PLUGINS_SEGS ++ [plugin_id]) = true) :
    clone_plugin env repo_url plugin_path plugin_id branch fs
      = (.err ("Plugin '" ++ plugin_id ++ "' is already installed."), fs) := by
  simp [clone_plugin, h]

/-- C5 witness: a second install of an existing plugin fails fast with
the filesystem untouched. -/
theorem c5_already_installed_witness :
    clone_plugin witEnv "https://example.com/r" "." "p" ""
        [USR_PLUGINS_SEGS ++ ["p"]]
      = (.err ("Plugin '" ++ "p" ++ "' is already installed."),
        [USR_PLUGINS_SEGS ++ ["p"]]) :=
  c5_already_installed witEnv "https://example.com/r" "." "p" "" _ (by decide)

/-- C6: when the resolved uninstall target coincides with the built-in
plugin location, `remove_plugin` rejects with the protected-plugin error
and the filesystem is unchanged (nothing is deleted). -/
theorem c6_protected_builtin (fs : FS) (plugin_id : String)
    (h : abspathStr (ospJoin USR_PLUGINS_DIR_STR plugin_id)
      = abspathStr (ospJoin BUILTIN_DIR_STR plugin_id)) :
    remove_plugin fs plugin_id = (.err "Cannot uninstall built-in plugins.", fs) := by
  simp [remove_plugin, h]

/-- C6 witness: an absolute identifier makes both joins resolve to the
same path and the removal is rejected with the tree intact. -/
theorem c6_protected_builtin_witness :
    remove_plugin [["a0", "plugins", "z"]] "/z"
      = (.err "Cannot uninstall built-in plugins.", [["a0", "plugins", "z"]]) :=
  c6_protected_builtin [["a0", "plugins", "z"]] "/z" (by decide)

theorem firstOccurAt_unique {m url : List Char} {i j : Nat}
    (hi : firstOccurAt m url i) (hj : firstOccurAt m url j) : i = j := by
  rcases Nat.lt_trichotomy i j with h | h | h
  · exact absurd hi.1 (hj.2 i h)
  · exact h
  · exact absurd hj.1 (hi.2 j h)

/-- C8 (amended): the URL used for clone and pull operations is the
input truncated at the first occurrence of `/tree/` when that marker is
present, otherwise at the first occurrence of `/blob/`; URLs containing
neither marker pass through unchanged.  (The source checks `/tree/`
before `/blob/`, not the earliest occurrence of either marker.) -/
theorem c8_url_truncation (url : List Char) :
    ((∀ j, ¬ occursAt treeMarker url j) → (∀ j, ¬ occursAt blobMarker url j) →
        clean_github_url url = url)
    ∧ (∀ i, firstOccurAt treeMarker url i → clean_github_url url = url.take i)
    ∧ ((∀ j, ¬ occursAt treeMarker url j) → ∀ i, firstOccurAt blobMarker url i →
        clean_github_url url = url.take i) := by
  refine ⟨?_, ?_, ?_⟩
  · intro ht hb
    cases hf : strFind treeMarker url with
    | some i => exact absurd (strFind_some hf).1 (ht i)
    | none =>
      cases hg : strFind blobMarker url with
      | some i => exact absurd (strFind_some hg).1 (hb i)
      | none => simp [clean_github_url, cleanLoop, hf, hg]
  · intro i hi
    cases hf : strFind treeMarker url with
    | none => exact absurd hi.1 (strFind_none hf i)
    | some j =>
      have hji : j = i := firstOccurAt_unique (strFind_some hf) hi
      subst hji
      simp [clean_github_url, cleanLoop, hf]
  · intro ht i hi
    have hf : strFind treeMarker url = none := by
      cases hf : strFind treeMarker url with
      | none => rfl
      | some j => exact absurd (strFind_some hf).1 (ht j)
    cases hg : strFind blobMarker url with
    | none => exact absurd hi.1 (strFind_none hg i)
    | some j =>
      have hji : j = i := firstOccurAt_unique (strFind_some hg) hi
      subst hji
      simp [clean_github_url, cleanLoop, hf, hg]

/-- C8 witness: a pasted browsable URL is truncated to the repository
base before cloning. -/
theorem c8_url_truncation_witness :
    clean_github_url ("https://github.com/u/r/tree/main".data)
      = ("https://github.com/u/r".data) := by
  have h := (c8_url_truncation ("https://github.com/u/r/tree/main".data)).2.1 22
    (by decide)
  rw [h]
  decide

/-- C8 counterexample: in `x/blob/y/tree/z` the earliest marker
occurrence is `/blob/` at index 1, yet the code truncates at `/tree/`
(index 8), so the output is not the input truncated at the first
occurrence of such a marker. -/
theorem c8_marker_order_counterexample :
    firstOccurAt blobMarker ("x/blob/y/tree/z".data) 1
    ∧ (∀ j < 1, ¬ occursAt treeMarker ("x/blob/y/tree/z".data) j)
    ∧ clean_github_url ("x/blob/y/tree/z".data) = ("x/blob/y".data)
    ∧ clean_github_url ("x/blob/y/tree/z".data) ≠ ("x/blob/y/tree/z".data).take 1 :=
  ⟨by decide, by decide, by decide, by decide⟩

/-! Section: Cleanup invariant -/

theorem pathExists_ite_rmtree {fs : FS} {p tmp : Pth} (h : pathExists fs p = false) :
    pathExists (if pathExists fs tmp then rmtree fs tmp else fs) p = false := by
  split
  · exact pathExists_filter _ h
  · exact h

theorem pathExists_rmtree_addNodes {fs : FS} {adds : List Pth} {tmp target : Pth}
    (hadds : ∀ q ∈ adds, leadsTo tmp q = true)
    (hfs : pathExists fs target = false) :
    pathExists (rmtree (addNodes fs adds) tmp) target = false := by
  have h1 : (adds.filter (fun q => !(leadsTo tmp q))).any
      (fun q => leadsTo target q) = false := by
    simp only [List.any_eq_false, List.mem_filter]
    rintro q ⟨hq, hg⟩
    rw [hadds q hq] at hg
    simp at hg
  have h2 := pathExists_filter (fun q => !(leadsTo tmp q)) hfs
  simp only [rmtree, addNodes, List.filter_append]
  rw [pathExists_append, h1, Bool.false_or]
  exact h2

theorem fullClone_err_clean {env : GitEnv} {url branch : String} {target : Pth}
    {fs fsx : FS} {m : String}
    (hfs : pathExists fs target = false)
    (h : fullClone env url target branch fs = .ok (.err m, fsx)) :
    pathExists fsx target = false := by
  unfold fullClone at h
  cases hc : env.clone url branch with
  | raised msg =>
    rw [hc] at h
    exact absurd h (by simp)
  | exited code stderr =>
    simp only [hc] at h
    by_cases h0 : (code != 0) = true
    · rw [if_pos h0] at h
      simp only [Except.ok.injEq, Prod.mk.injEq] at h
      rw [← h.2]
      exact hfs
    · rw [if_neg h0] at h
      split at h <;> split at h <;>
        first
          | (simp only [Except.ok.injEq, Prod.mk.injEq] at h
             rw [← h.2]
             exact pathExists_rmtree_self _ _)
          | simp at h

theorem sparse_leaf_clean {fs : FS} {tmp target : Pth} {adds : List Pth}
    (hadds : ∀ q ∈ adds, leadsTo tmp q = true) (htmp : tmp ∈ adds)
    (hfs : pathExists fs target = false) :
    pathExists (if pathExists (addNodes fs adds) tmp then rmtree (addNodes fs adds) tmp
        else addNodes fs adds) target = false := by
  have hcond : pathExists (addNodes fs adds) tmp = true := by
    show pathExists (adds ++ fs) tmp = true
    rw [pathExists_append]
    have hany : adds.any (fun q => leadsTo tmp q) = true :=
      List.any_eq_true.mpr ⟨tmp, htmp, leadsTo_refl tmp⟩
    rw [hany]
    rfl
  rw [if_pos hcond]
  exact pathExists_rmtree_addNodes hadds hfs

theorem sparseCloneCore_err_clean {env : GitEnv} {url pp : String} {target tmp : Pth}
    {branch : String} {fs fs1 : FS} {m : String}
    (hfs : pathExists fs target = false)
    (hc : sparseCloneCore env url pp target tmp branch fs = .ok (.err m, fs1)) :
    pathExists (if pathExists fs1 tmp then rmtree fs1 tmp else fs1) target = false := by
  have hpair : ∀ q ∈ [tmp ++ [".git", "info", "sparse-checkout"], tmp],
      leadsTo tmp q = true := by
    intro q hq
    rcases List.mem_cons.mp hq with rfl | hq
    · exact leadsTo_self_append _ _
    · rcases List.mem_cons.mp hq with rfl | hq
      · exact leadsTo_refl _
      · simp at hq
  unfold sparseCloneCore at hc
  cases hI : env.initExc with
  | some mm => simp [hI] at hc
  | none =>
  cases hR : env.remoteExc with
  | some mm => simp [hI, hR] at hc
  | none =>
  cases hC : env.configExc with
  | some mm => simp [hI, hR, hC] at hc
  | none =>
  simp only [hI, hR, hC] at hc
  cases hP : pullLoop (env.pull url) (branchesToTry branch) with
  | error mm => simp [hP] at hc
  | ok o =>
    cases o with
    | none =>
      simp only [hP] at hc
      simp only [Except.ok.injEq, Prod.mk.injEq] at hc
      rw [← hc.2]
      exact sparse_leaf_clean hpair (by simp) hfs
    | some t =>
      obtain ⟨b, c, e⟩ := t
      simp only [hP] at hc
      by_cases hcode : (c != 0) = true
      · rw [if_pos hcode] at hc
        simp only [Except.ok.injEq, Prod.mk.injEq] at hc
        rw [← hc.2]
        exact sparse_leaf_clean hpair (by simp) hfs
      · rw [if_neg hcode] at hc
        split at hc
        · simp only [Except.ok.injEq, Prod.mk.injEq] at hc
          rw [← hc.2]
          have hX : addNodes (addNode (addNode fs tmp)
                (tmp ++ [".git", "info", "sparse-checkout"]))
                ((env.pullFiles url b).map (fun r => (tmp ++ strSegs pp) ++ r))
              = addNodes fs
                (((env.pullFiles url b).map (fun r => (tmp ++ strSegs pp) ++ r))
                  ++ [tmp ++ [".git", "info", "sparse-checkout"], tmp]) := by
            simp [addNodes, addNode, List.append_assoc]
          rw [hX]
          refine sparse_leaf_clean ?_ (by simp) hfs
          intro q hq
          rcases List.mem_append.mp hq with hq | hq
          · obtain ⟨r, _, rfl⟩ := List.mem_map.mp hq
            rw [List.append_assoc]
            exact leadsTo_self_append _ _
          · exact hpair q hq
        · split at hc
          · simp only [Except.ok.injEq, Prod.mk.injEq] at hc
            rw [← hc.2]
            exact pathExists_ite_rmtree (pathExists_rmtree_self _ _)
          · simp at hc

theorem sparseClone_err_clean {env : GitEnv} {url pp : String} {target tmp : Pth}
    {branch : String} {fs fsx : FS} {m : String}
    (hfs : pathExists fs target = false)
    (h : sparseClone env url pp target tmp branch fs = .ok (.err m, fsx)) :
    pathExists fsx target = false := by
  unfold sparseClone at h
  cases hc : sparseCloneCore env url pp target tmp branch fs with
  | error pr => simp [hc] at h
  | ok pr =>
    obtain ⟨r, fs1⟩ := pr
    simp only [hc] at h
    simp only [Except.ok.injEq, Prod.mk.injEq] at h
    obtain ⟨hr, hfx⟩ := h
    subst hr
    rw [← hfx]
    exact sparseCloneCore_err_clean hfs hc

theorem clone_plugin_shape (env : GitEnv)
    (repo_url plugin_path plugin_id branch : String) (fs : FS)
    (hfs : pathExists fs (USR_PLUGINS_SEGS ++ [plugin_id]) = false) :
    clone_plugin env repo_url plugin_path plugin_id branch fs
      = match (if plugin_path != "" && plugin_path != "." then
            sparseClone env (String.mk (clean_github_url repo_url.data)) plugin_path
              (USR_PLUGINS_SEGS ++ [plugin_id])
              (USR_PLUGINS_SEGS ++ [plugin_id ++ "_tmp_clone"]) branch
              (addNode fs USR_PLUGINS_SEGS)
          else
            fullClone env (String.mk (clean_github_url repo_url.data))
              (USR_PLUGINS_SEGS ++ [plugin_id]) branch (addNode fs USR_PLUGINS_SEGS)) with
        | .ok (r, fs2) => (r, fs2)
        | .error (mm, fs2) =>
          (.err mm, if pathExists fs2 (USR_PLUGINS_SEGS ++ [plugin_id]) then
              rmtree fs2 (USR_PLUGINS_SEGS ++ [plugin_id]) else fs2) := by
  simp only [clone_plugin, hfs]
  rfl

/-- C1: whenever `clone_plugin` starts from a state where the target
directory does not exist and returns any error — already-installed is
excluded by the precondition, leaving manifest-missing, path-not-found,
clone or pull failure, and raised exceptions — the target directory does
not exist afterwards. -/
theorem c1_cleanup_invariant (env : GitEnv)
    (repo_url plugin_path plugin_id branch : String) (fs : FS)
    (hfs : pathExists fs (USR_PLUGINS_SEGS ++ [plugin_id]) = false) (m : String)
    (hm : (clone_plugin env repo_url plugin_path plugin_id branch fs).1 = .err m) :
    pathExists (clone_plugin env repo_url plugin_path plugin_id branch fs).2
      (USR_PLUGINS_SEGS ++ [plugin_id]) = false := by
  have hfs1 : pathExists (addNode fs USR_PLUGINS_SEGS)
      (USR_PLUGINS_SEGS ++ [plugin_id]) = false := by
    show pathExists (USR_PLUGINS_SEGS :: fs) (USR_PLUGINS_SEGS ++ [plugin_id]) = false
    rw [pathExists_cons, hfs, not_leadsTo_snoc_self]
    rfl
  rw [clone_plugin_shape env repo_url plugin_path plugin_id branch fs hfs] at hm ⊢
  cases hrun : (if plugin_path != "" && plugin_path != "." then
      sparseClone env (String.mk (clean_github_url repo_url.data)) plugin_path
        (USR_PLUGINS_SEGS ++ [plugin_id])
        (USR_PLUGINS_SEGS ++ [plugin_id ++ "_tmp_clone"]) branch
        (addNode fs USR_PLUGINS_SEGS)
    else
      fullClone env (String.mk (clean_github_url repo_url.data))
        (USR_PLUGINS_SEGS ++ [plugin_id]) branch (addNode fs USR_PLUGINS_SEGS)) with
  | ok pr =>
    obtain ⟨r, fs2⟩ := pr
    simp only [hrun] at hm ⊢
    subst hm
    by_cases hd : (plugin_path != "" && plugin_path != ".") = true
    · rw [if_pos hd] at hrun
      exact sparseClone_err_clean hfs1 hrun
    · rw [if_neg hd] at hrun
      exact fullClone_err_clean hfs1 hrun
  | error pr =>
    obtain ⟨mm, fs2⟩ := pr
    simp only [hrun] at hm ⊢
    split
    · exact pathExists_rmtree_self _ _
    · next hcond => simpa using hcond

/-- C1 witness: a failing full clone of a fresh plugin leaves no target
directory behind. -/
theorem c1_cleanup_witness :
    pathExists (clone_plugin witEnv "https://example.com/r" "." "p" "" []).2
      (USR_PLUGINS_SEGS ++ ["p"]) = false :=
  c1_cleanup_invariant witEnv "https://example.com/r" "." "p" "" [] (by decide)
    ("git clone failed: " ++ "boom".trim) rfl

/-! Section: Branch fallback -/

theorem pullLoop_single {pull : String → ProcOut} {b : String} {c : Nat} {e : String}
    (h : pull b = .exited c e) : pullLoop pull [b] = .ok (some (b, c, e)) := by
  unfold pullLoop
  simp only [h]
  split <;> rfl

theorem pullLoop_pair_second {pull : String → ProcOut} {c : Nat} {e : String}
    {c2 : Nat} {e2 : String} (h1 : pull "main" = .exited c e) (hc : (c == 0) = false)
    (h2 : pull "master" = .exited c2 e2) :
    pullLoop pull ["main", "master"] = .ok (some ("master", c2, e2)) := by
  unfold pullLoop
  simp only [h1, hc]
  exact pullLoop_single h2

theorem attempted_single (pull : String → ProcOut) (b : String) :
    attemptedBranches pull [b] = [b] := by
  unfold attemptedBranches
  cases pull b with
  | raised mm => rfl
  | exited c e => split <;> simp

theorem attempted_pair_first {pull : String → ProcOut} {c : Nat} {e : String}
    (h : pull "main" = .exited c e) (hc : (c == 0) = true) :
    attemptedBranches pull ["main", "master"] = ["main"] := by
  unfold attemptedBranches
  simp only [h, hc]
  rfl

theorem attempted_pair_both {pull : String → ProcOut} {c : Nat} {e : String}
    (h : pull "main" = .exited c e) (hc : (c == 0) = false) :
    attemptedBranches pull ["main", "master"] = ["main", "master"] := by
  unfold attemptedBranches
  simp only [h, hc]
  rw [show attemptedBranches pull ["master"] = ["master"] from attempted_single pull "master"]
  simp

theorem sparseClone_pull_fail {env : GitEnv} {url pp : String} {target tmp : Pth}
    {branch : String} {fs : FS} {b : String} {c : Nat} {e : String}
    (hinit : env.initExc = none) (hrem : env.remoteExc = none)
    (hcfg : env.configExc = none)
    (hl : pullLoop (env.pull url) (branchesToTry branch) = .ok (some (b, c, e)))
    (hc : (c != 0) = true) :
    ∃ fsx, sparseClone env url pp target tmp branch fs
      = .ok (.err ("git pull failed: " ++ e.trim), fsx) := by
  have hcore : sparseCloneCore env url pp target tmp branch fs
      = .ok (.err ("git pull failed: " ++ e.trim),
        addNode (addNode fs tmp) (tmp ++ [".git", "info", "sparse-checkout"])) := by
    unfold sparseCloneCore
    simp [hinit, hrem, hcfg, hl, hc]
  refine ⟨if pathExists (addNode (addNode fs tmp)
        (tmp ++ [".git", "info", "sparse-checkout"])) tmp then
      rmtree (addNode (addNode fs tmp)
        (tmp ++ [".git", "info", "sparse-checkout"])) tmp
    else addNode (addNode fs tmp) (tmp ++ [".git", "info", "sparse-checkout"]), ?_⟩
  unfold sparseClone
  rw [hcore]

/-- C4: in the sparse strategy, a caller-supplied branch is the only
branch attempted; with no branch, `main` is tried and then `master`,
stopping at the first successful pull; and when every attempted pull
fails, the single returned error carries the diagnostic text of the
last attempted branch. -/
theorem c4_branch_fallback (env : GitEnv) (url pp : String) (target tmp : Pth)
    (branch : String) (fs : FS)
    (hinit : env.initExc = none) (hrem : env.remoteExc = none)
    (hcfg : env.configExc = none) :
    (∀ c e, branch ≠ "" → env.pull url branch = .exited c e →
        attemptedBranches (env.pull url) (branchesToTry branch) = [branch]
        ∧ (c ≠ 0 → ∃ fsx, sparseClone env url pp target tmp branch fs
            = .ok (.err ("git pull failed: " ++ e.trim), fsx)))
    ∧ (∀ c e, branch = "" → env.pull url "main" = .exited c e → c = 0 →
        attemptedBranches (env.pull url) (branchesToTry branch) = ["main"])
    ∧ (∀ c e c2 e2, branch = "" → env.pull url "main" = .exited c e → c ≠ 0 →
        env.pull url "master" = .exited c2 e2 →
        attemptedBranches (env.pull url) (branchesToTry branch) = ["main", "master"]
        ∧ (c2 ≠ 0 → ∃ fsx, sparseClone env url pp target tmp branch fs
            = .ok (.err ("git pull failed: " ++ e2.trim), fsx))) := by
  refine ⟨?_, ?_, ?_⟩
  · intro c e hb hp
    have hb' : (branch != "") = true := by simpa using hb
    have hbt : branchesToTry branch = [branch] := by
      unfold branchesToTry
      rw [if_pos hb']
    refine ⟨by rw [hbt]; exact attempted_single _ _, ?_⟩
    intro hc0
    have hc0' : (c != 0) = true := by simpa using hc0
    exact sparseClone_pull_fail hinit hrem hcfg
      (by rw [hbt]; exact pullLoop_single hp) hc0'
  · intro c e hb hp hc0
    have hbt : branchesToTry branch = ["main", "master"] := by
      unfold branchesToTry
      rw [if_neg (by simp [hb])]
    rw [hbt]
    exact attempted_pair_first hp (by simp [hc0])
  · intro c e c2 e2 hb hp hc0 hp2
    have hc0' : (c == 0) = false := by simpa using hc0
    have hbt : branchesToTry branch = ["main", "master"] := by
      unfold branchesToTry
      rw [if_neg (by simp [hb])]
    refine ⟨by rw [hbt]; exact attempted_pair_both hp hc0', ?_⟩
    intro hc2
    have hc2' : (c2 != 0) = true := by simpa using hc2
    exact sparseClone_pull_fail hinit hrem hcfg
      (by rw [hbt]; exact pullLoop_pair_second hp hc0' hp2) hc2'

/-- C4 witness: with no caller branch and both `main` and `master`
failing, both branches are attempted and the error carries the last
(`master`) diagnostic. -/
theorem c4_branch_fallback_witness :
    attemptedBranches (witEnv.pull "u") (branchesToTry "") = ["main", "master"]
    ∧ ∃ fsx, sparseClone witEnv "u" "sub" (USR_PLUGINS_SEGS ++ ["p"])
        (USR_PLUGINS_SEGS ++ ["p_tmp_clone"]) "" []
      = .ok (.err ("git pull failed: " ++ ("no branch " ++ "master").trim), fsx) := by
  have h := (c4_branch_fallback witEnv "u" "sub" (USR_PLUGINS_SEGS ++ ["p"])
      (USR_PLUGINS_SEGS ++ ["p_tmp_clone"]) "" [] rfl rfl rfl).2.2 1
      ("no branch " ++ "main") 1 ("no branch " ++ "master") rfl rfl (by decide) rfl
  exact ⟨h.1, h.2 (by decide)⟩

end A0M
